import Mathlib

/-!
Verification of the cuts-dj-backend data layer and auth layer.

The JavaScript source (src/db.js, server.js) is shallowly embedded here:
each SQLite table becomes a Lean list of row structures inside a `Db`
state, each exported function becomes a Lean function threading that
state, and thrown JavaScript errors become `Except.error` results paired
with the unchanged state.  bcrypt and jsonwebtoken are external
dependencies of the repository; they appear as explicit function
parameters (`hashFn`, `compareFn`) and as a signed-claims structure
with expiry arithmetic, respectively.  SQLite primary-key and UNIQUE
behaviour is reflected by explicit guards, matching the constraint
declarations in db.js.
-/

namespace CutsDj

/-! ## Validation helpers (db.js) -/

/-- The JavaScript String.prototype.trim: strip leading and trailing
whitespace characters. -/
def jsTrim (s : String) : String :=
  ⟨((s.toList.dropWhile Char.isWhitespace).reverse.dropWhile
      Char.isWhitespace).reverse⟩

/-- The JavaScript String.prototype.toLowerCase on the characters used
here (ASCII identifiers and email addresses). -/
def jsToLower (s : String) : String :=
  ⟨s.toList.map Char.toLower⟩

/-- Split a character list at every at sign, the JS String.split behaviour
needed by the email regexp: an n-part result means n-1 at signs. -/
def splitAtSign (cs : List Char) : List (List Char) :=
  match cs with
  | [] => [[]]
  | c :: rest =>
    let tail := splitAtSign rest
    if c == '@' then [] :: tail
    else
      match tail with
      | [] => [[c]]
      | h :: t => (c :: h) :: t

/-- Embedding of the character class used by the email regexp in db.js
(`[^\s@]`): any character that is neither whitespace nor an at sign. -/
def emailChar (c : Char) : Bool :=
  !c.isWhitespace && c != '@'

/-- Embedding of `isEmail` (db.js line 127): the trimmed string must match
`[^\s@]+@[^\s@]+\.[^\s@]+`, i.e. split into exactly two nonempty
at-free, whitespace-free chunks around a single at sign, with the domain
chunk containing a dot that is neither its first nor its last character. -/
def isEmail (s : String) : Bool :=
  match splitAtSign (jsTrim s).toList with
  | [localPart, domainPart] =>
      !localPart.isEmpty && localPart.all emailChar &&
      domainPart.all emailChar && ((domainPart.drop 1).dropLast.contains '.')
  | _ => false

/-- Embedding of `normalizeIdentifier` (db.js line 123). -/
def normalizeIdentifier (s : String) : String :=
  jsTrim s

/-- The CHECK constraint on users.role (db.js line 27). -/
def validRole (r : String) : Bool :=
  r == "student" || r == "teacher" || r == "admin"

/-- The CHECK constraint on attendance.status (db.js line 79). -/
def validAttStatus (r : String) : Bool :=
  r == "present" || r == "absent" || r == "late" || r == "excused"

/-- The CHECK constraint on payments.status (db.js line 94). -/
def validPayStatus (r : String) : Bool :=
  r == "pending" || r == "paid" || r == "failed" || r == "refunded"

/-! ## Row structures (the tables created in initDb, db.js lines 21-99) -/

/-- A row of the `users` table. -/
structure UserRow where
  id : Nat
  username : String
  email : Option String
  fullName : Option String
  role : String
  passwordHash : String
  createdAt : Nat
  lastLoginAt : Option Nat
deriving DecidableEq, Repr

/-- A row of the `classes` table. -/
structure ClassRow where
  id : Nat
  title : String
  description : Option String
  teacherId : Option Nat
  startAt : Option Int
  endAt : Option Int
  createdAt : Nat
deriving DecidableEq, Repr

/-- A row of the `enrollments` table. -/
structure EnrollmentRow where
  id : Nat
  classId : Nat
  studentId : Nat
  createdAt : Nat
deriving DecidableEq, Repr

/-- A row of the `attendance` table. -/
structure AttendanceRow where
  id : Nat
  classId : Nat
  studentId : Nat
  date : String
  status : String
  createdAt : Nat
deriving DecidableEq, Repr

/-- A row of the `payments` table. -/
structure PaymentRow where
  id : Nat
  studentId : Nat
  amountCents : Int
  currency : String
  status : String
  note : Option String
  createdAt : Nat
deriving DecidableEq, Repr

/-- The projection returned by the user read queries.  The SELECT column
lists in db.js determine the `passwordHash` field: `none` when the query
omits the column (findUserByEmail, findUserByUsername, getUserById, the
object literal built by authenticateUser), `some` only for the internal
authentication lookup. -/
structure UserView where
  id : Nat
  username : String
  email : Option String
  fullName : Option String
  role : String
  passwordHash : Option String
  createdAt : Nat
  lastLoginAt : Option Nat
deriving DecidableEq, Repr

/-- The joined row shape produced by listEnrollmentsForStudent
(db.js lines 369-381). -/
structure EnrollmentJoined where
  id : Nat
  classId : Nat
  studentId : Nat
  createdAt : Nat
  title : String
  description : Option String
  startAt : Option Int
  endAt : Option Int
deriving DecidableEq, Repr

/-- The whole SQLite database file, plus the process clock.  `now` stands
for CURRENT_TIMESTAMP and the JavaScript Date clock; `todayIso` stands for
`new Date().toISOString().slice(0, 10)`.  The `next…Id` fields model the
AUTOINCREMENT counters. -/
structure Db where
  users : List UserRow
  nextUserId : Nat
  classes : List ClassRow
  enrollments : List EnrollmentRow
  nextEnrollmentId : Nat
  attendance : List AttendanceRow
  nextAttendanceId : Nat
  payments : List PaymentRow
  nextPaymentId : Nat
  now : Nat
  todayIso : String
deriving DecidableEq, Repr

/-! ## User operations (db.js lines 132-304) -/

/-- The secret-free SELECT used by findUserByEmail, findUserByUsername and
getUserById: `SELECT id, username, email, fullName, role, createdAt,
lastLoginAt` — no passwordHash column. -/
def userView (u : UserRow) : UserView :=
  { id := u.id, username := u.username, email := u.email, fullName := u.fullName,
    role := u.role, passwordHash := none, createdAt := u.createdAt,
    lastLoginAt := u.lastLoginAt }

/-- Embedding of `findUserByEmail` (db.js lines 162-174). -/
def findUserByEmail (s : Db) (email : String) : Option UserView :=
  let e := jsToLower (normalizeIdentifier email)
  if e == "" then none
  else (s.users.find? (fun u => u.email == some e)).map userView

/-- Embedding of `findUserByUsername` (db.js lines 176-188). -/
def findUserByUsername (s : Db) (username : String) : Option UserView :=
  let u0 := normalizeIdentifier username
  if u0 == "" then none
  else (s.users.find? (fun u => u.username == u0)).map userView

/-- Embedding of `getUserById` (db.js lines 190-200). -/
def getUserById (s : Db) (id : Nat) : Option UserView :=
  (s.users.find? (fun u => u.id == id)).map userView

/-- Embedding of `getUserAuthByIdentifier` (db.js lines 202-228): the only
lookup whose SELECT includes passwordHash, so it returns the raw row. -/
def getUserAuthByIdentifier (s : Db) (identifier : String) : Option UserRow :=
  let idf := normalizeIdentifier identifier
  if idf == "" then none
  else if isEmail idf then s.users.find? (fun u => u.email == some (jsToLower idf))
  else s.users.find? (fun u => u.username == idf)

/-- The normalization applied to the optional email argument of createUser
(db.js line 134): a falsy email becomes NULL, otherwise trim + lowercase. -/
def emailNorm : Option String → Option String
  | none => none
  | some e => if e == "" then none else some (jsToLower (normalizeIdentifier e))

/-- The UNIQUE constraints hit by the INSERT in createUser: a stored user
already owns the normalized username, or the normalized email (NULL emails
never collide in SQLite). -/
def duplicateIdentity (s : Db) (uname : String) (em : Option String) : Bool :=
  s.users.any (fun u => u.username == uname) ||
  (match em with
   | some e => s.users.any (fun u => u.email == some e)
   | none => false)

/-- Embedding of `createUser` (db.js lines 132-160).  `hashFn` is the
bcrypt `hashPassword` helper passed explicitly.  The UNIQUE violation is
caught and rethrown as the specific already-exists message; the role CHECK
constraint is not caught and surfaces as a raw constraint error. -/
def createUser (hashFn : String → String) (s : Db) (username : String)
    (email fullName : Option String) (role password : String) :
    Except String (Option UserView) × Db :=
  let uname := normalizeIdentifier username
  let em := emailNorm email
  if uname == "" then (Except.error "username is required", s)
  else if (match em with | some e => !(isEmail e) | none => false) then
    (Except.error "email is invalid", s)
  else if role == "" then (Except.error "role is required", s)
  else if password == "" then (Except.error "password is required", s)
  else
    let pwHash := hashFn password
    if !(validRole role) then (Except.error "CHECK constraint failed", s)
    else if duplicateIdentity s uname em then
      (Except.error "User with this username or email already exists", s)
    else
      let row : UserRow :=
        { id := s.nextUserId, username := uname, email := em, fullName := fullName,
          role := role, passwordHash := pwHash, createdAt := s.now, lastLoginAt := none }
      let s1 : Db := { s with users := s.users ++ [row], nextUserId := s.nextUserId + 1 }
      (Except.ok (getUserById s1 row.id), s1)

/-- Embedding of `authenticateUser` (db.js lines 230-251).  `compareFn` is
the bcrypt `comparePassword` helper passed explicitly.  A missing user and
a wrong password both yield `Except.ok none` with the state untouched; a
match stamps lastLoginAt and returns the hash-free object literal. -/
def authenticateUser (compareFn : String → String → Bool) (s : Db)
    (identifier password : String) : Except String (Option UserView) × Db :=
  if identifier == "" || password == "" then
    (Except.error "identifier and password are required", s)
  else
    match getUserAuthByIdentifier s identifier with
    | none => (Except.ok none, s)
    | some row =>
      if compareFn password row.passwordHash then
        let s1 : Db :=
          { s with users := s.users.map (fun u =>
              if u.id == row.id then { u with lastLoginAt := some s.now } else u) }
        (Except.ok (some
          { id := row.id, username := row.username, email := row.email,
            fullName := row.fullName, role := row.role, passwordHash := none,
            createdAt := row.createdAt, lastLoginAt := some s.now }), s1)
      else (Except.ok none, s)

/-- The status mapping of POST /auth/login (server.js lines 84-99): a
thrown error becomes 500, a null user becomes 401 Invalid credentials,
and a user becomes 200 with a fresh token. -/
def loginHttpStatus (r : Except String (Option UserView)) : Nat :=
  match r with
  | Except.error _ => 500
  | Except.ok none => 401
  | Except.ok (some _) => 200

/-! ## Token service (server.js lines 23-51, jsonwebtoken semantics) -/

/-- The payload signed by `signToken` (server.js lines 23-29) together
with the issued-at and expiry stamps jsonwebtoken adds (seconds). -/
structure TokenClaims where
  userId : Nat
  role : String
  username : String
  iat : Nat
  exp : Nat
deriving DecidableEq, Repr

/-- A signed token: claims plus the secret baked into the signature. -/
structure SignedToken where
  claims : TokenClaims
  signedWith : String
deriving DecidableEq, Repr

/-- The `expiresIn: '7d'` option of signToken, in seconds. -/
def sevenDaysSeconds : Nat := 7 * 24 * 60 * 60

/-- Embedding of `signToken` (server.js lines 23-29): payload
`{ userId, role, username }`, expiry seven days from issuance. -/
def signToken (secret : String) (now : Nat) (userId : Nat)
    (role username : String) : SignedToken :=
  { claims := { userId := userId, role := role, username := username,
                iat := now, exp := now + sevenDaysSeconds },
    signedWith := secret }

/-- Embedding of `jwt.verify`: fails on a signature mismatch and fails
once the clock reaches the exp stamp (jsonwebtoken rejects when
`clockTimestamp >= exp`); otherwise returns the decoded claims. -/
def jwtVerify (secret : String) (now : Nat) (t : SignedToken) :
    Except String TokenClaims :=
  if t.signedWith != secret then Except.error "invalid signature"
  else if t.claims.exp ≤ now then Except.error "jwt expired"
  else Except.ok t.claims

/-- Embedding of `requireAuth` (server.js lines 31-42): a missing bearer
token gives 401 Missing token, any verification failure gives the single
undifferentiated 401 Invalid token. -/
def requireAuth (secret : String) (now : Nat) (header : Option SignedToken) :
    Except (Nat × String) TokenClaims :=
  match header with
  | none => Except.error (401, "Missing token")
  | some t =>
    match jwtVerify secret now t with
    | Except.ok claims => Except.ok claims
    | Except.error _ => Except.error (401, "Invalid token")

/-- Embedding of `requireRole` (server.js lines 44-51): a falsy role claim
(absent or empty) or a role outside the allowed list gives 403 Forbidden. -/
def requireRole (allowed : List String) (roleClaim : Option String) :
    Except (Nat × String) Unit :=
  match roleClaim with
  | none => Except.error (403, "Forbidden")
  | some r =>
    if r == "" then Except.error (403, "Forbidden")
    else if allowed.contains r then Except.ok ()
    else Except.error (403, "Forbidden")

/-- The allowed-role list of POST /attendance (server.js line 160). -/
def attendanceAllowedRoles : List String := ["teacher", "admin"]

/-- The allowed-role list of POST /enroll (server.js line 142). -/
def enrollAllowedRoles : List String := ["student"]

/-! ## Enrollment ledger (db.js lines 354-381) -/

/-- Embedding of `enroll` (db.js lines 354-367): a plain INSERT whose
UNIQUE(classId, studentId) violation is caught and rethrown as the
Already enrolled error; foreign-key violations propagate raw.  On success
the freshly inserted row is selected back and returned. -/
def enroll (s : Db) (classId studentId : Nat) :
    Except String EnrollmentRow × Db :=
  if s.enrollments.any (fun e => e.classId == classId && e.studentId == studentId) then
    (Except.error "Already enrolled", s)
  else if !(s.classes.any (fun c => c.id == classId)) ||
          !(s.users.any (fun u => u.id == studentId)) then
    (Except.error "FOREIGN KEY constraint failed", s)
  else
    let row : EnrollmentRow :=
      { id := s.nextEnrollmentId, classId := classId, studentId := studentId,
        createdAt := s.now }
    (Except.ok row,
     { s with enrollments := s.enrollments ++ [row],
              nextEnrollmentId := s.nextEnrollmentId + 1 })

/-- The JOIN body of listEnrollmentsForStudent: the rows of the student
joined with their class summary, before the ORDER BY. -/
def enrollmentJoinRows (s : Db) (studentId : Nat) : List EnrollmentJoined :=
  s.enrollments.filterMap (fun e =>
    if e.studentId == studentId then
      (s.classes.find? (fun c => c.id == e.classId)).map (fun c =>
        { id := e.id, classId := e.classId, studentId := e.studentId,
          createdAt := e.createdAt, title := c.title, description := c.description,
          startAt := c.startAt, endAt := c.endAt })
    else none)

/-- The ORDER BY e.createdAt DESC relation of listEnrollmentsForStudent. -/
def createdDescRel (a b : EnrollmentJoined) : Prop :=
  b.createdAt ≤ a.createdAt

instance : DecidableRel createdDescRel :=
  fun a b => Nat.decLe b.createdAt a.createdAt

instance : IsTotal EnrollmentJoined createdDescRel :=
  ⟨fun a b => (Nat.le_total b.createdAt a.createdAt).imp id id⟩

instance : IsTrans EnrollmentJoined createdDescRel :=
  ⟨fun _ _ _ hab hbc => Nat.le_trans hbc hab⟩

/-- Embedding of `listEnrollmentsForStudent` (db.js lines 369-381):
the join rows ordered by enrollment creation time descending. -/
def listEnrollmentsForStudent (s : Db) (studentId : Nat) :
    List EnrollmentJoined :=
  List.insertionSort createdDescRel (enrollmentJoinRows s studentId)

/-! ## Attendance ledger (db.js lines 383-416) -/

/-- The WHERE clause of the upsert lookup in markAttendance. -/
def tripleMatch (classId studentId : Nat) (d : String) (a : AttendanceRow) : Bool :=
  a.classId == classId && a.studentId == studentId && a.date == d

/-- The UPDATE attendance SET status WHERE id statement: replaces the row
carrying the given primary key. -/
def updAtt (eid : Nat) (e1 : AttendanceRow) (l : List AttendanceRow) :
    List AttendanceRow :=
  l.map (fun a => if a.id == eid then e1 else a)

/-- Embedding of `markAttendance` (db.js lines 383-402): an explicit
find-then-branch upsert keyed on (classId, studentId, date).  A found row
is updated in place, keeping its id; otherwise a new row is inserted.  The
status CHECK constraint and the foreign keys guard both paths. -/
def markAttendance (s : Db) (classId studentId : Nat) (status : String)
    (date : Option String) : Except String AttendanceRow × Db :=
  let isoDate := date.getD s.todayIso
  match s.attendance.find? (tripleMatch classId studentId isoDate) with
  | some existing =>
    if validAttStatus status then
      let updated : AttendanceRow := { existing with status := status }
      (Except.ok updated,
       { s with attendance := updAtt existing.id updated s.attendance })
    else (Except.error "CHECK constraint failed", s)
  | none =>
    if validAttStatus status && s.classes.any (fun c => c.id == classId) &&
       s.users.any (fun u => u.id == studentId) then
      let row : AttendanceRow :=
        { id := s.nextAttendanceId, classId := classId, studentId := studentId,
          date := isoDate, status := status, createdAt := s.now }
      (Except.ok row,
       { s with attendance := s.attendance ++ [row],
                nextAttendanceId := s.nextAttendanceId + 1 })
    else (Except.error "constraint failed", s)

/-! ## Payment ledger (db.js lines 418-439, server.js lines 179-190) -/

/-- Embedding of `createPayment` (db.js lines 430-439): a plain INSERT
with no amount validation whatsoever; only the status CHECK constraint and
the studentId foreign key can reject it. -/
def createPayment (s : Db) (studentId : Nat) (amountCents : Int)
    (currency status : String) (note : Option String) :
    Except String PaymentRow × Db :=
  if !(validPayStatus status) then (Except.error "CHECK constraint failed", s)
  else if !(s.users.any (fun u => u.id == studentId)) then
    (Except.error "FOREIGN KEY constraint failed", s)
  else
    let row : PaymentRow :=
      { id := s.nextPaymentId, studentId := studentId, amountCents := amountCents,
        currency := currency, status := status, note := note, createdAt := s.now }
    (Except.ok row,
     { s with payments := s.payments ++ [row],
              nextPaymentId := s.nextPaymentId + 1 })

/-- The body guard of POST /payments (server.js lines 181-183): the JS
truthiness test rejects only a missing or zero studentId or amountCents. -/
def paymentsRouteAccepts (studentId : Option Nat) (amountCents : Option Int) : Bool :=
  match studentId, amountCents with
  | some sid, some amt => !(sid == 0) && !(amt == 0)
  | _, _ => false

/-- The names exported by module.exports in db.js (lines 447-476). -/
def dbExportedFunctions : List String :=
  ["initDb", "hashPassword", "comparePassword", "createUser",
   "authenticateUser", "getUserById", "findUserByEmail", "findUserByUsername",
   "updateUser", "deleteUser", "listClasses", "createClass",
   "listAnnouncements", "createAnnouncement", "enroll",
   "listEnrollmentsForStudent", "markAttendance", "listAttendanceForStudent",
   "listPaymentsForStudent", "createPayment", "closeDb"]

/-- The db function invoked by GET /payments (server.js line 189). -/
def adminPaymentsListCallee : String := "listAllPayments"

/-! ## Table well-formedness

SQLite maintains the primary key and the UNIQUE(classId, studentId, date)
constraint of the attendance table by construction; the list embedding
carries them as an explicit invariant. -/

/-- Invariant of the attendance table: ids are below the AUTOINCREMENT
counter, ids are unique, and the natural triple is unique. -/
def attWf (s : Db) : Prop :=
  (∀ a ∈ s.attendance, a.id < s.nextAttendanceId) ∧
  (∀ i : Nat, (s.attendance.filter (fun a => a.id == i)).length ≤ 1) ∧
  (∀ c st d, (s.attendance.filter (tripleMatch c st d)).length ≤ 1)

/-! ## Generic list lemmas -/

-- If the rows satisfying p are exactly [e], then the first row found is e.
theorem find?_of_filter_singleton {α : Type} (p : α → Bool) (l : List α) (e : α)
    (h : l.filter p = [e]) : l.find? p = some e := by
  induction l with
  | nil => simp at h
  | cons a t ih =>
    by_cases hpa : p a = true
    · rw [List.filter_cons_of_pos hpa] at h
      obtain ⟨rfl, -⟩ := List.cons_eq_cons.mp h
      exact List.find?_cons_of_pos _ hpa
    · rw [List.filter_cons_of_neg hpa] at h
      rw [List.find?_cons_of_neg _ hpa]
      exact ih h

-- A p-filter of length at most one admits a single satisfying row.
theorem eq_of_mem_filter_length_le_one {α : Type} (p : α → Bool) (l : List α)
    (a b : α) (hlen : (l.filter p).length ≤ 1) (ha : a ∈ l) (hpa : p a = true)
    (hb : b ∈ l) (hpb : p b = true) : a = b := by
  have ha2 : a ∈ l.filter p := List.mem_filter.mpr ⟨ha, hpa⟩
  have hb2 : b ∈ l.filter p := List.mem_filter.mpr ⟨hb, hpb⟩
  cases hfl : l.filter p with
  | nil => rw [hfl] at ha2; exact absurd ha2 (List.not_mem_nil a)
  | cons x xs =>
    cases xs with
    | nil =>
      rw [hfl] at ha2 hb2
      simp only [List.mem_singleton] at ha2 hb2
      rw [ha2, hb2]
    | cons y ys =>
      rw [hfl] at hlen
      simp at hlen

-- A found row together with a filter bound pins the filter down exactly.
theorem filter_eq_singleton_of_find? {α : Type} (p : α → Bool) (l : List α)
    (e : α) (hf : l.find? p = some e) (hlen : (l.filter p).length ≤ 1) :
    l.filter p = [e] := by
  have he : e ∈ l := List.mem_of_find?_eq_some hf
  have hpe : p e = true := List.find?_some hf
  have he2 : e ∈ l.filter p := List.mem_filter.mpr ⟨he, hpe⟩
  cases hfl : l.filter p with
  | nil => rw [hfl] at he2; exact absurd he2 (List.not_mem_nil e)
  | cons x xs =>
    cases xs with
    | nil =>
      rw [hfl] at he2
      simp only [List.mem_singleton] at he2
      rw [he2]
    | cons y ys =>
      rw [hfl] at hlen
      simp at hlen

-- Appending a fresh satisfying row to rows that all fail p.
theorem filter_append_singleton {α : Type} (p : α → Bool) (l : List α) (x : α)
    (hl : ∀ a ∈ l, ¬ p a = true) (hx : p x = true) :
    (l ++ [x]).filter p = [x] := by
  rw [List.filter_append, List.filter_eq_nil_iff.mpr hl]
  simp [hx]

-- Scanning past rows that all fail p.
theorem find?_append_of_none {α : Type} (p : α → Bool) (l1 l2 : List α)
    (h : ∀ a ∈ l1, ¬ p a = true) : (l1 ++ l2).find? p = l2.find? p := by
  induction l1 with
  | nil => rfl
  | cons a t ih =>
    rw [List.cons_append, List.find?_cons_of_neg _ (h a (List.mem_cons_self a t))]
    exact ih (fun b hb => h b (List.mem_cons_of_mem a hb))

-- The UPDATE-by-id of the single p-row replaces it and touches nothing else.
theorem filter_updAtt_singleton (p : AttendanceRow → Bool) (l : List AttendanceRow)
    (e e1 : AttendanceRow) (hfe : l.filter p = [e])
    (hid : ∀ a ∈ l, a.id = e.id → a = e) (hpe1 : p e1 = true) :
    (updAtt e.id e1 l).filter p = [e1] := by
  induction l with
  | nil => simp at hfe
  | cons a t ih =>
    by_cases hpa : p a = true
    · rw [List.filter_cons_of_pos hpa] at hfe
      obtain ⟨rfl, hft⟩ := List.cons_eq_cons.mp hfe
      have htf : ∀ b ∈ t, ¬ p b = true := List.filter_eq_nil_iff.mp hft
      have hnotin : ∀ b ∈ t, (b.id == a.id) = false := by
        intro b hb
        by_contra hbe
        have hbid : b.id = a.id := by
          simpa using (Bool.not_eq_false _).mp hbe
        have : b = a := hid b (List.mem_cons_of_mem a hb) hbid
        exact htf b hb (this ▸ hpa)
      have hmap : t.map (fun x => if x.id == a.id then e1 else x) = t := by
        calc t.map (fun x => if x.id == a.id then e1 else x)
            = t.map id := List.map_congr_left (by
              intro b hb
              simp [hnotin b hb])
          _ = t := List.map_id t
      rw [updAtt, List.map_cons, hmap]
      have hhead : (if a.id == a.id then e1 else a) = e1 := by simp
      rw [hhead, List.filter_cons_of_pos hpe1, List.filter_eq_nil_iff.mpr htf]
    · rw [List.filter_cons_of_neg hpa] at hfe
      have hpe : p e = true := by
        have hmem : e ∈ t.filter p := by rw [hfe]; exact List.mem_singleton_self e
        exact (List.mem_filter.mp hmem).2
      have haid : (a.id == e.id) = false := by
        by_contra hbe
        have h1 : a.id = e.id := by
          simpa using (Bool.not_eq_false _).mp hbe
        have h2 : a = e := hid a (List.mem_cons_self a t) h1
        exact hpa (h2 ▸ hpe)
      have hstep : updAtt e.id e1 (a :: t) = a :: updAtt e.id e1 t := by
        have hcond : ¬ ((a.id == e.id) = true) := by simp [haid]
        simp only [updAtt, List.map_cons, if_neg hcond]
      rw [hstep, List.filter_cons_of_neg hpa]
      exact ih hfe (fun b hb => hid b (List.mem_cons_of_mem a hb))

-- Updating by id preserves the property that the updated id pins down a
-- unique row.
theorem updAtt_id_unique (l : List AttendanceRow) (e e1 : AttendanceRow)
    (hide1 : e1.id = e.id) :
    ∀ a ∈ updAtt e.id e1 l, a.id = e1.id → a = e1 := by
  intro a ha haid
  rw [updAtt, List.mem_map] at ha
  obtain ⟨b, hb, rfl⟩ := ha
  by_cases hbid : (b.id == e.id) = true
  · simp [hbid]
  · rw [if_neg hbid] at haid ⊢
    have hbeq : b.id = e.id := haid.trans hide1
    exact absurd (by simp [hbeq]) hbid

/-! ## Example databases for witnesses and counterexamples -/

/-- A fresh database right after initDb. -/
def emptyDb : Db :=
  { users := [], nextUserId := 1, classes := [], enrollments := [],
    nextEnrollmentId := 1, attendance := [], nextAttendanceId := 1,
    payments := [], nextPaymentId := 1, now := 10, todayIso := "2026-01-05" }

/-- A sample class row. -/
def sampleClass : ClassRow :=
  { id := 1, title := "Scratch Basics", description := none, teacherId := none,
    startAt := some 50, endAt := none, createdAt := 1 }

/-- A second sample class row, starting later than sampleClass. -/
def sampleClassLater : ClassRow :=
  { id := 2, title := "Advanced Mixing", description := none, teacherId := none,
    startAt := some 100, endAt := none, createdAt := 2 }

/-- A sample student row, password hash produced by the model hash below. -/
def sampleStudent : UserRow :=
  { id := 2, username := "bob", email := some "bob@example.com",
    fullName := some "Bob", role := "student", passwordHash := "bcrypt$secret",
    createdAt := 1, lastLoginAt := none }

/-- A deterministic stand-in for the bcrypt hash helper, used to
instantiate the hash parameter in witnesses. -/
def modelHash (p : String) : String := "bcrypt$" ++ p

/-- A stand-in for bcrypt.compare matching modelHash. -/
def modelCompare (p h : String) : Bool := h == modelHash p

/-- A database in which student 2 is already enrolled in class 1. -/
def dbEnrolled : Db :=
  { emptyDb with users := [sampleStudent], nextUserId := 3,
                 classes := [sampleClass], enrollments :=
                   [{ id := 1, classId := 1, studentId := 2, createdAt := 5 }],
                 nextEnrollmentId := 2 }

/-- The same database without the enrollment row. -/
def dbNotEnrolled : Db :=
  { dbEnrolled with enrollments := [], nextEnrollmentId := 1 }

/-- A database where student 7 enrolled first in the earlier-starting
class (start 50) and later in the later-starting class (start 100). -/
def dbTwoEnrollments : Db :=
  { emptyDb with
      users := [{ id := 7, username := "kim", email := none, fullName := none,
                  role := "student", passwordHash := "bcrypt$pw", createdAt := 1,
                  lastLoginAt := none }],
      nextUserId := 8,
      classes := [sampleClass, sampleClassLater],
      enrollments := [{ id := 1, classId := 1, studentId := 7, createdAt := 1 },
                      { id := 2, classId := 2, studentId := 7, createdAt := 2 }],
      nextEnrollmentId := 3 }

/-! ## C1: duplicate enrollment -/

/-- C1 counterexample: with the pair (1, 2) already enrolled, the claim
says enroll returns a normal result flagged created=false; the code
instead throws the Already enrolled error (db.js line 363), so no
Except.ok result exists. -/
theorem enroll_duplicate_not_created_false :
    (enroll dbEnrolled 1 2).1 = Except.error "Already enrolled" ∧
    (enroll dbEnrolled 1 2).2 = dbEnrolled ∧
    ¬ ∃ r, (enroll dbEnrolled 1 2).1 = Except.ok r := by
  refine ⟨rfl, rfl, ?_⟩
  rintro ⟨r, hr⟩
  have h1 : (enroll dbEnrolled 1 2).1 = Except.error "Already enrolled" := rfl
  rw [h1] at hr
  exact Except.noConfusion hr

/-- C1 amended: when an enrollment row for (classId, studentId) exists,
enroll throws the Already enrolled error and leaves storage unchanged;
only when no such row exists (and the referenced class and student exist)
does it insert one and return the inserted row — there is no created
flag, and the duplicate case is an error, not a flagged no-op. -/
theorem enroll_duplicate_errors_unique_insert (s : Db) (classId studentId : Nat) :
    (s.enrollments.any (fun e => e.classId == classId && e.studentId == studentId) = true →
      enroll s classId studentId = (Except.error "Already enrolled", s)) ∧
    (s.enrollments.any (fun e => e.classId == classId && e.studentId == studentId) = false →
      s.classes.any (fun c => c.id == classId) = true →
      s.users.any (fun u => u.id == studentId) = true →
      ∃ row, enroll s classId studentId =
        (Except.ok row,
         { s with enrollments := s.enrollments ++ [row],
                  nextEnrollmentId := s.nextEnrollmentId + 1 }) ∧
        row.classId = classId ∧ row.studentId = studentId) := by
  constructor
  · intro h
    simp [enroll, h]
  · intro h hc hu
    refine ⟨{ id := s.nextEnrollmentId, classId := classId,
              studentId := studentId, createdAt := s.now }, ?_, rfl, rfl⟩
    simp [enroll, h, hc, hu]

/-- C1 witness: the duplicate branch at dbEnrolled and the insert branch
at dbNotEnrolled, both concrete. -/
theorem enroll_duplicate_errors_unique_insert_witness :
    enroll dbEnrolled 1 2 = (Except.error "Already enrolled", dbEnrolled) ∧
    ∃ row, enroll dbNotEnrolled 1 2 =
      (Except.ok row,
       { dbNotEnrolled with
           enrollments := dbNotEnrolled.enrollments ++ [row],
           nextEnrollmentId := dbNotEnrolled.nextEnrollmentId + 1 }) ∧
      row.classId = 1 ∧ row.studentId = 2 := by
  exact ⟨(enroll_duplicate_errors_unique_insert dbEnrolled 1 2).1 (by decide),
         (enroll_duplicate_errors_unique_insert dbNotEnrolled 1 2).2
           (by decide) (by decide) (by decide)⟩

/-! ## C2: attendance upsert -/

/-- C2: marking attendance twice for the same (class, student, date)
leaves exactly one row for the triple, carrying the second status and the
id produced by the first call: the second call updates in place rather
than inserting a duplicate (db.js lines 383-402). -/
theorem mark_attendance_upsert (s : Db) (c st : Nat) (d st1 st2 : String)
    (hwf : attWf s) (h1 : validAttStatus st1 = true)
    (h2 : validAttStatus st2 = true)
    (hc : s.classes.any (fun cl => cl.id == c) = true)
    (hu : s.users.any (fun u => u.id == st) = true) :
    ∃ r1 r2 s1 s2,
      markAttendance s c st st1 (some d) = (Except.ok r1, s1) ∧
      markAttendance s1 c st st2 (some d) = (Except.ok r2, s2) ∧
      r2.id = r1.id ∧ r2.status = st2 ∧
      s2.attendance.filter (tripleMatch c st d) = [r2] := by
  obtain ⟨hwf1, hwf2, hwf3⟩ := hwf
  cases hfind : s.attendance.find? (tripleMatch c st d) with
  | some e =>
    -- first call: UPDATE in place of the existing row e
    have hpe : tripleMatch c st d e = true := List.find?_some hfind
    have hmem : e ∈ s.attendance := List.mem_of_find?_eq_some hfind
    have hfe : s.attendance.filter (tripleMatch c st d) = [e] :=
      filter_eq_singleton_of_find? _ _ _ hfind (hwf3 c st d)
    have hid : ∀ a ∈ s.attendance, a.id = e.id → a = e := by
      intro a ha haid
      exact eq_of_mem_filter_length_le_one (fun x => x.id == e.id)
        s.attendance a e (hwf2 e.id) ha (by simp [haid]) hmem (by simp)
    set u1 : AttendanceRow := { e with status := st1 } with hu1
    set u2 : AttendanceRow := { u1 with status := st2 } with hu2
    have hp1 : tripleMatch c st d u1 = true := by
      simp only [tripleMatch] at hpe ⊢
      exact hpe
    have hp2 : tripleMatch c st d u2 = true := by
      simp only [tripleMatch] at hpe ⊢
      exact hpe
    have hstep1 : markAttendance s c st st1 (some d) =
        (Except.ok u1, { s with attendance := updAtt e.id u1 s.attendance }) := by
      simp only [markAttendance, Option.getD_some]
      rw [hfind]
      simp [h1]
    have hfil1 : (updAtt e.id u1 s.attendance).filter (tripleMatch c st d) = [u1] :=
      filter_updAtt_singleton _ _ e u1 hfe hid hp1
    have hfind1 : (updAtt e.id u1 s.attendance).find? (tripleMatch c st d) = some u1 :=
      find?_of_filter_singleton _ _ _ hfil1
    have hid1 : ∀ a ∈ updAtt e.id u1 s.attendance, a.id = u1.id → a = u1 :=
      updAtt_id_unique s.attendance e u1 rfl
    have hstep2 : markAttendance { s with attendance := updAtt e.id u1 s.attendance }
        c st st2 (some d) =
        (Except.ok u2,
         { s with attendance := updAtt u1.id u2 (updAtt e.id u1 s.attendance) }) := by
      simp only [markAttendance, Option.getD_some]
      rw [hfind1]
      simp [h2]
    have hfil2 : (updAtt u1.id u2 (updAtt e.id u1 s.attendance)).filter
        (tripleMatch c st d) = [u2] :=
      filter_updAtt_singleton _ _ u1 u2 hfil1 hid1 hp2
    exact ⟨u1, u2, _, _, hstep1, hstep2, rfl, rfl, hfil2⟩
  | none =>
    -- first call: INSERT of a fresh row
    have hnone : ∀ a ∈ s.attendance, ¬ tripleMatch c st d a = true :=
      fun a ha => by
        have := List.find?_eq_none.mp hfind a ha
        simpa using this
    set row1 : AttendanceRow :=
      { id := s.nextAttendanceId, classId := c, studentId := st,
        date := d, status := st1, createdAt := s.now } with hrow1
    set u2 : AttendanceRow := { row1 with status := st2 } with hu2
    have hp1 : tripleMatch c st d row1 = true := by
      simp [tripleMatch]
    have hp2 : tripleMatch c st d u2 = true := by
      simp [tripleMatch, hu2, hrow1]
    have hstep1 : markAttendance s c st st1 (some d) =
        (Except.ok row1,
         { s with attendance := s.attendance ++ [row1],
                  nextAttendanceId := s.nextAttendanceId + 1 }) := by
      simp only [markAttendance, Option.getD_some]
      rw [hfind]
      simp [h1, hc, hu]
    have hfil1 : (s.attendance ++ [row1]).filter (tripleMatch c st d) = [row1] :=
      filter_append_singleton _ _ _ hnone hp1
    have hfind1 : (s.attendance ++ [row1]).find? (tripleMatch c st d) = some row1 :=
      find?_of_filter_singleton _ _ _ hfil1
    have hid1 : ∀ a ∈ s.attendance ++ [row1], a.id = row1.id → a = row1 := by
      intro a ha haid
      rcases List.mem_append.mp ha with hin | hin
      · have hlt := hwf1 a hin
        have : a.id = s.nextAttendanceId := haid
        omega
      · simpa using hin
    have hstep2 : markAttendance
        { s with attendance := s.attendance ++ [row1],
                 nextAttendanceId := s.nextAttendanceId + 1 } c st st2 (some d) =
        (Except.ok u2,
         { s with attendance := updAtt row1.id u2 (s.attendance ++ [row1]),
                  nextAttendanceId := s.nextAttendanceId + 1 }) := by
      simp only [markAttendance, Option.getD_some]
      rw [hfind1]
      simp [h2]
    have hfil2 : (updAtt row1.id u2 (s.attendance ++ [row1])).filter
        (tripleMatch c st d) = [u2] :=
      filter_updAtt_singleton _ _ row1 u2 hfil1 hid1 hp2
    exact ⟨row1, u2, _, _, hstep1, hstep2, rfl, rfl, hfil2⟩

/-- C2 witness: two marks on an initially empty attendance table, first
present then late, at a concrete database. -/
theorem mark_attendance_upsert_witness :
    ∃ r1 r2 s1 s2,
      markAttendance dbEnrolled 1 2 "present" (some "2026-01-05") = (Except.ok r1, s1) ∧
      markAttendance s1 1 2 "late" (some "2026-01-05") = (Except.ok r2, s2) ∧
      r2.id = r1.id ∧ r2.status = "late" ∧
      s2.attendance.filter (tripleMatch 1 2 "2026-01-05") = [r2] := by
  exact mark_attendance_upsert dbEnrolled 1 2 "2026-01-05" "present" "late"
    (by refine ⟨?_, ?_, ?_⟩ <;> simp [dbEnrolled, emptyDb, attWf])
    (by decide) (by decide) (by decide) (by decide)

/-! ## C3: token issuance and expiry -/

/-- C3: a token issued by signToken verifies immediately after issuance to
claims whose subject id and role equal those of the user, and once the
fixed seven-day window has elapsed verification fails and requireAuth
reports the single undifferentiated Invalid token failure. -/
theorem token_verifies_then_expires (secret : String) (now later : Nat)
    (userId : Nat) (role username : String)
    (hlater : now + sevenDaysSeconds ≤ later) :
    (∃ cl, jwtVerify secret now (signToken secret now userId role username) =
        Except.ok cl ∧ cl.userId = userId ∧ cl.role = role) ∧
    jwtVerify secret later (signToken secret now userId role username) =
      Except.error "jwt expired" ∧
    requireAuth secret later (some (signToken secret now userId role username)) =
      Except.error (401, "Invalid token") := by
  have hne : (secret != secret) = false := by simp
  have hexp : ¬ (now + sevenDaysSeconds ≤ now) := by
    simp [sevenDaysSeconds]
  refine ⟨⟨{ userId := userId, role := role, username := username,
             iat := now, exp := now + sevenDaysSeconds }, ?_, rfl, rfl⟩, ?_, ?_⟩
  · simp [jwtVerify, signToken, hne, hexp]
  · simp [jwtVerify, signToken, hne, hlater]
  · simp [requireAuth, jwtVerify, signToken, hne, hlater]

/-- C3 witness: a concrete token for user 2, verified at issuance time 0
and again exactly seven days later. -/
theorem token_verifies_then_expires_witness :
    (∃ cl, jwtVerify "change-me" 0 (signToken "change-me" 0 2 "student" "bob") =
        Except.ok cl ∧ cl.userId = 2 ∧ cl.role = "student") ∧
    jwtVerify "change-me" sevenDaysSeconds (signToken "change-me" 0 2 "student" "bob") =
      Except.error "jwt expired" ∧
    requireAuth "change-me" sevenDaysSeconds
        (some (signToken "change-me" 0 2 "student" "bob")) =
      Except.error (401, "Invalid token") := by
  exact token_verifies_then_expires "change-me" 0 sevenDaysSeconds 2 "student" "bob"
    (by simp)

/-! ## C4: no read path exposes the password hash -/

/-- C4: findUserByEmail, findUserByUsername, getUserById and the user
object returned by a successful authenticateUser all omit the passwordHash
column; only the internal getUserAuthByIdentifier lookup carries it. -/
theorem read_paths_never_expose_hash (s : Db) (x y : String) (idv : Nat)
    (cmp : String → String → Bool) (ident pw : String) :
    (∀ u, findUserByEmail s x = some u → u.passwordHash = none) ∧
    (∀ u, findUserByUsername s y = some u → u.passwordHash = none) ∧
    (∀ u, getUserById s idv = some u → u.passwordHash = none) ∧
    (∀ u s1, authenticateUser cmp s ident pw = (Except.ok (some u), s1) →
       u.passwordHash = none) := by
  refine ⟨?_, ?_, ?_, ?_⟩
  · intro u hu
    simp only [findUserByEmail] at hu
    split at hu
    · exact absurd hu (by simp)
    · obtain ⟨r, -, rfl⟩ := Option.map_eq_some'.mp hu
      rfl
  · intro u hu
    simp only [findUserByUsername] at hu
    split at hu
    · exact absurd hu (by simp)
    · obtain ⟨r, -, rfl⟩ := Option.map_eq_some'.mp hu
      rfl
  · intro u hu
    simp only [getUserById] at hu
    obtain ⟨r, -, rfl⟩ := Option.map_eq_some'.mp hu
    rfl
  · intro u s1 h
    simp only [authenticateUser] at h
    split at h
    · exact absurd h (by simp)
    · split at h
      · exact absurd h (by simp)
      · split at h
        · have h2 := congrArg Prod.fst h
          simp only [Except.ok.injEq, Option.some.injEq] at h2
          rw [← h2]
        · exact absurd h (by simp)

/-- C4 witness: each sanitized read path evaluated at a concrete database
holding user bob, plus a successful concrete login. -/
theorem read_paths_never_expose_hash_witness :
    (∃ u, findUserByEmail dbEnrolled "bob@example.com" = some u ∧
       u.passwordHash = none) ∧
    (∃ u, findUserByUsername dbEnrolled "bob" = some u ∧ u.passwordHash = none) ∧
    (∃ u, getUserById dbEnrolled 2 = some u ∧ u.passwordHash = none) ∧
    (∃ u s1, authenticateUser modelCompare dbEnrolled "bob" "secret" =
        (Except.ok (some u), s1) ∧ u.passwordHash = none) := by
  have hthm := read_paths_never_expose_hash dbEnrolled "bob@example.com" "bob" 2
    modelCompare "bob" "secret"
  have h1 : findUserByEmail dbEnrolled "bob@example.com" =
      some (userView sampleStudent) := by rfl
  have h2 : findUserByUsername dbEnrolled "bob" = some (userView sampleStudent) := by rfl
  have h3 : getUserById dbEnrolled 2 = some (userView sampleStudent) := by rfl
  have h4 : authenticateUser modelCompare dbEnrolled "bob" "secret" =
      (Except.ok (some
        { id := 2, username := "bob", email := some "bob@example.com",
          fullName := some "Bob", role := "student", passwordHash := none,
          createdAt := 1, lastLoginAt := some 10 }),
       { dbEnrolled with users := [{ sampleStudent with lastLoginAt := some 10 }] }) := by
    rfl
  exact ⟨⟨_, h1, hthm.1 _ h1⟩, ⟨_, h2, hthm.2.1 _ h2⟩, ⟨_, h3, hthm.2.2.1 _ h3⟩,
         ⟨_, _, h4, hthm.2.2.2 _ _ h4⟩⟩

/-! ## C5: role guard fails closed -/

/-- C5: requireRole refuses with 403 Forbidden whenever the claims carry
no role (absent or empty) or a role outside the allowed list; in
particular a student is always refused by the attendance route, whose
allowed list is teacher and admin, while an admin passes it. -/
theorem require_role_fails_closed (allowed : List String) (rc : Option String)
    (h : ∀ r, rc = some r → r = "" ∨ allowed.contains r = false) :
    requireRole allowed rc = Except.error (403, "Forbidden") ∧
    requireRole attendanceAllowedRoles (some "student") =
      Except.error (403, "Forbidden") ∧
    requireRole attendanceAllowedRoles (some "admin") = Except.ok () := by
  refine ⟨?_, rfl, rfl⟩
  cases rc with
  | none => rfl
  | some r =>
    rcases h r rfl with hr | hr
    · subst hr
      rfl
    · simp only [requireRole]
      have hnotin : r ∉ allowed := by simpa using hr
      simp [hnotin]

/-- C5 witness: a student token against the attendance route at concrete
arguments, with the guard hypothesis discharged there. -/
theorem require_role_fails_closed_witness :
    requireRole attendanceAllowedRoles (some "student") =
      Except.error (403, "Forbidden") ∧
    requireRole attendanceAllowedRoles (some "admin") = Except.ok () := by
  have h := require_role_fails_closed attendanceAllowedRoles (some "student")
    (by
      intro r hr
      injection hr with h2
      subst h2
      exact Or.inr rfl)
  exact ⟨h.1, h.2.2⟩

/-! ## C6: identity creation -/

/-- C6: createUser trims the username and trims-and-lowercases the email
before the uniqueness check, hashes the password before persisting, fails
with the specific already-exists error (distinct from any raw storage
error) when the normalized username or email is taken, and otherwise
persists and returns the new user. -/
theorem create_user_normalizes_and_rejects_duplicates
    (hashFn : String → String) (s : Db) (username : String)
    (email fullName : Option String) (role password : String)
    (hids : ∀ u ∈ s.users, u.id < s.nextUserId)
    (hu : normalizeIdentifier username ≠ "")
    (he : ∀ e, emailNorm email = some e → isEmail e = true)
    (hr : validRole role = true) (hp : password ≠ "") :
    (duplicateIdentity s (normalizeIdentifier username) (emailNorm email) = true →
      createUser hashFn s username email fullName role password =
        (Except.error "User with this username or email already exists", s)) ∧
    (duplicateIdentity s (normalizeIdentifier username) (emailNorm email) = false →
      ∃ row : UserRow,
        createUser hashFn s username email fullName role password =
          (Except.ok (some (userView row)),
           { s with users := s.users ++ [row], nextUserId := s.nextUserId + 1 }) ∧
        row.username = normalizeIdentifier username ∧
        row.email = emailNorm email ∧
        row.passwordHash = hashFn password) := by
  have huf : (normalizeIdentifier username == "") = false := by
    simpa using hu
  have hef : (match emailNorm email with
              | some e => !(isEmail e)
              | none => false) = false := by
    cases hem : emailNorm email with
    | none => rfl
    | some e => simp [he e hem]
  have hrole : role ≠ "" := by
    intro hq
    subst hq
    simp [validRole] at hr
  have hrf : (role == "") = false := by simpa using hrole
  have hpf : (password == "") = false := by simpa using hp
  constructor
  · intro hdup
    simp [createUser, huf, hef, hrf, hpf, hr, hdup]
  · intro hdup
    refine ⟨{ id := s.nextUserId, username := normalizeIdentifier username,
              email := emailNorm email, fullName := fullName, role := role,
              passwordHash := hashFn password, createdAt := s.now,
              lastLoginAt := none }, ?_, rfl, rfl, rfl⟩
    have hskip : ∀ u ∈ s.users, ¬ ((fun u => u.id == s.nextUserId) u = true) := by
      intro u hu2
      have := hids u hu2
      simp only [beq_iff_eq]
      omega
    have hlast : (s.users ++
        [({ id := s.nextUserId, username := normalizeIdentifier username,
            email := emailNorm email, fullName := fullName, role := role,
            passwordHash := hashFn password, createdAt := s.now,
            lastLoginAt := none } : UserRow)]).find?
          (fun u => u.id == s.nextUserId) =
        some { id := s.nextUserId, username := normalizeIdentifier username,
               email := emailNorm email, fullName := fullName, role := role,
               passwordHash := hashFn password, createdAt := s.now,
               lastLoginAt := none } := by
      rw [find?_append_of_none _ _ _ hskip]
      exact List.find?_cons_of_pos _ (by simp)
    simp only [createUser, huf, hef, hrf, hpf, hr, hdup, Bool.not_true,
      Bool.false_eq_true, if_false, getUserById, hlast]
    simp [getUserById, hlast]

/-- C6 witness: a duplicate registration of bob fails with the specific
already-exists error, and a fresh registration of alice with a
mixed-case email is normalized, hashed and persisted. -/
theorem create_user_normalizes_and_rejects_duplicates_witness :
    createUser modelHash dbEnrolled "bob" none none "student" "pw2" =
      (Except.error "User with this username or email already exists", dbEnrolled) ∧
    ∃ row : UserRow,
      createUser modelHash dbEnrolled "alice" (some "Alice@Example.com") none
          "student" "pw1" =
        (Except.ok (some (userView row)),
         { dbEnrolled with users := dbEnrolled.users ++ [row],
                           nextUserId := dbEnrolled.nextUserId + 1 }) ∧
      row.username = normalizeIdentifier "alice" ∧
      row.email = emailNorm (some "Alice@Example.com") ∧
      row.passwordHash = modelHash "pw1" := by
  constructor
  · exact (create_user_normalizes_and_rejects_duplicates modelHash dbEnrolled
      "bob" none none "student" "pw2"
      (by intro u hu2; fin_cases hu2; decide)
      (by decide)
      (by intro e he2; exact Option.noConfusion he2)
      (by decide) (by decide)).1 (by decide)
  · exact (create_user_normalizes_and_rejects_duplicates modelHash dbEnrolled
      "alice" (some "Alice@Example.com") none "student" "pw1"
      (by intro u hu2; fin_cases hu2; decide)
      (by decide)
      (by
        intro e he2
        have hn : emailNorm (some "Alice@Example.com") =
            some "alice@example.com" := by decide
        rw [hn] at he2
        rw [← Option.some.inj he2]
        decide)
      (by decide) (by decide)).2 (by decide)

/-! ## C7: payment amount validation -/

/-- C7 counterexample: the claim says createPayment rejects negative
amounts before persisting; in fact a -500 cent charge passes the route
guard (server.js line 181) and is inserted and returned by createPayment
(db.js lines 430-439), which contains no amount validation at all. -/
theorem create_payment_accepts_negative_amount :
    paymentsRouteAccepts (some 2) (some (-500)) = true ∧
    ∃ row s1, createPayment dbEnrolled 2 (-500) "USD" "pending" none =
        (Except.ok row, s1) ∧ row.amountCents = -500 ∧ s1.payments = [row] := by
  refine ⟨rfl, ⟨{ id := 1, studentId := 2, amountCents := -500, currency := "USD",
                  status := "pending", note := none, createdAt := 10 },
                { dbEnrolled with
                    payments := [{ id := 1, studentId := 2, amountCents := -500,
                                   currency := "USD", status := "pending",
                                   note := none, createdAt := 10 }],
                    nextPaymentId := 2 },
                rfl, rfl, rfl⟩⟩

/-- C7 amended: createPayment validates nothing about the amount: any
integer amount, negative included, is inserted and returned, subject only
to the status CHECK constraint and the student foreign key; the HTTP
route rejects only a missing or zero (falsy) studentId or amountCents. -/
theorem create_payment_no_amount_validation (s : Db) (sid : Nat) (amt : Int)
    (currency status : String) (note : Option String)
    (hst : validPayStatus status = true)
    (hfk : s.users.any (fun u => u.id == sid) = true) :
    (∃ row, createPayment s sid amt currency status note =
      (Except.ok row,
       { s with payments := s.payments ++ [row],
                nextPaymentId := s.nextPaymentId + 1 }) ∧
      row.amountCents = amt) ∧
    (∀ sidv : Nat, sidv ≠ 0 → amt ≠ 0 →
       paymentsRouteAccepts (some sidv) (some amt) = true) := by
  constructor
  · refine ⟨{ id := s.nextPaymentId, studentId := sid, amountCents := amt,
              currency := currency, status := status, note := note,
              createdAt := s.now }, ?_, rfl⟩
    simp [createPayment, hst, hfk]
  · intro sidv hsid hamt
    simp [paymentsRouteAccepts, hsid, hamt]

/-- C7 amended witness: the negative charge of -500 cents at the concrete
database, inserted and accepted by the route guard. -/
theorem create_payment_no_amount_validation_witness :
    (∃ row, createPayment dbEnrolled 2 (-500) "USD" "pending" none =
      (Except.ok row,
       { dbEnrolled with payments := dbEnrolled.payments ++ [row],
                         nextPaymentId := dbEnrolled.nextPaymentId + 1 }) ∧
      row.amountCents = -500) ∧
    (∀ sidv : Nat, sidv ≠ 0 → (-500 : Int) ≠ 0 →
       paymentsRouteAccepts (some sidv) (some (-500)) = true) := by
  exact create_payment_no_amount_validation dbEnrolled 2 (-500) "USD" "pending"
    none (by decide) (by decide)

/-! ## C8: failed logins are indistinguishable -/

/-- C8: a login attempt with an identifier matching no stored user and a
login attempt with a known identifier but wrong password produce
identical observable results: the same ok-none value, the same 401
status, and an unchanged database — a failed login never reveals whether
the account exists. -/
theorem failed_logins_indistinguishable (cmp : String → String → Bool)
    (s : Db) (i1 i2 p1 p2 : String) (row : UserRow)
    (h1 : i1 ≠ "") (h2 : p1 ≠ "") (h3 : i2 ≠ "") (h4 : p2 ≠ "")
    (hmiss : getUserAuthByIdentifier s i1 = none)
    (hhit : getUserAuthByIdentifier s i2 = some row)
    (hwrong : cmp p2 row.passwordHash = false) :
    authenticateUser cmp s i1 p1 = (Except.ok none, s) ∧
    authenticateUser cmp s i2 p2 = (Except.ok none, s) ∧
    authenticateUser cmp s i1 p1 = authenticateUser cmp s i2 p2 ∧
    loginHttpStatus (authenticateUser cmp s i1 p1).1 = 401 ∧
    loginHttpStatus (authenticateUser cmp s i2 p2).1 = 401 := by
  have ha : authenticateUser cmp s i1 p1 = (Except.ok none, s) := by
    simp [authenticateUser, h1, h2, hmiss]
  have hb : authenticateUser cmp s i2 p2 = (Except.ok none, s) := by
    simp [authenticateUser, h3, h4, hhit, hwrong]
  refine ⟨ha, hb, ha.trans hb.symm, ?_, ?_⟩
  · rw [ha]
    rfl
  · rw [hb]
    rfl

/-- C8 witness: at the concrete database holding only bob, the unknown
identifier alice and the wrong-password attempt against bob coincide. -/
theorem failed_logins_indistinguishable_witness :
    authenticateUser modelCompare dbEnrolled "alice" "x" = (Except.ok none, dbEnrolled) ∧
    authenticateUser modelCompare dbEnrolled "bob" "wrong" = (Except.ok none, dbEnrolled) ∧
    authenticateUser modelCompare dbEnrolled "alice" "x" =
      authenticateUser modelCompare dbEnrolled "bob" "wrong" ∧
    loginHttpStatus (authenticateUser modelCompare dbEnrolled "alice" "x").1 = 401 ∧
    loginHttpStatus (authenticateUser modelCompare dbEnrolled "bob" "wrong").1 = 401 := by
  exact failed_logins_indistinguishable modelCompare dbEnrolled "alice" "bob"
    "x" "wrong" sampleStudent (by decide) (by decide) (by decide) (by decide)
    (by decide) (by decide) (by decide)

/-! ## C9: the admin payments listing calls a function db.js never defines -/

/-- C9: GET /payments (server.js line 189) calls db.listAllPayments, but
the module.exports list of db.js contains no listAllPayments (only the
per-student listPaymentsForStudent), so the administrative listing throws
a TypeError at runtime instead of returning all payments newest first:
the listAll operation the claim describes does not exist in the code. -/
theorem admin_payments_listing_callee_missing :
    dbExportedFunctions.contains adminPaymentsListCallee = false := by
  decide

/-! ## C10: enrollment listing order -/

/-- C10 counterexample: for student 7, enrolled first in the class
starting at 50 and then in the class starting at 100, the listing puts
the start-100 class first — ordered by enrollment creation time
descending, not by class start time ascending as claimed. -/
theorem list_enrollments_not_start_ascending :
    (listEnrollmentsForStudent dbTwoEnrollments 7).map (fun r => r.startAt) =
      [some 100, some 50] ∧
    ¬ List.Sorted (fun a b : EnrollmentJoined =>
        a.startAt.getD 0 ≤ b.startAt.getD 0)
      (listEnrollmentsForStudent dbTwoEnrollments 7) := by
  exact ⟨by decide, by decide⟩

/-- C10 amended: listEnrollmentsForStudent returns exactly the join of
the student's enrollments with their class summaries, ordered by
enrollment creation time descending (most recently enrolled first). -/
theorem list_enrollments_created_desc (s : Db) (studentId : Nat) :
    List.Sorted createdDescRel (listEnrollmentsForStudent s studentId) ∧
    (listEnrollmentsForStudent s studentId).Perm
      (enrollmentJoinRows s studentId) := by
  exact ⟨List.sorted_insertionSort createdDescRel _,
         List.perm_insertionSort createdDescRel _⟩

end CutsDj
